import Mathlib

/-
  Verification development for the background-removal core of the Galileo
  repository (src/src-tauri/src/background_remove.rs).

  The pipeline is embedded shallowly: external collaborators (base64 codec,
  CoreGraphics image decode, the Vision segmentation call, the CVPixelBuffer
  lock, the PNG encoder) are modelled as oracle fields of environment
  structures, while every branch and computation written in the repository
  source is translated directly.  Machine integers are modelled as Nat/Int;
  buffer bytes are a function from offsets to byte values.
-/

namespace Galileo

/-- Row-major nested-loop traversal: for `y` in `[0,h)`, for `x` in `[0,w)`,
emit `f x y`.  This is the loop shape of the extractor loop (outer `y`,
inner `x`) in `generate_mask_from_vision` and of pixel rasters generally. -/
def gridMap (w h : Nat) (f : Nat → Nat → Nat) : List Nat :=
  (List.range h).flatMap fun y => (List.range w).map fun x => f x y

lemma gridMap_succ (w n : Nat) (f : Nat → Nat → Nat) :
    gridMap w (n + 1) f = gridMap w n f ++ (List.range w).map (fun x => f x n) := by
  simp [gridMap, List.range_succ]

lemma gridMap_length (w h : Nat) (f : Nat → Nat → Nat) :
    (gridMap w h f).length = h * w := by
  induction h with
  | zero => simp [gridMap]
  | succ n ih =>
    rw [gridMap_succ, List.length_append, ih]
    simp [Nat.succ_mul]

lemma gridMap_getD (w h : Nat) (f : Nat → Nat → Nat) (x y : Nat)
    (hx : x < w) (hy : y < h) :
    (gridMap w h f).getD (y * w + x) 0 = f x y := by
  induction h with
  | zero => exact absurd hy (Nat.not_lt_zero y)
  | succ n ih =>
    rw [gridMap_succ]
    by_cases hyn : y < n
    · have h2 : y * w + x < (y + 1) * w := by rw [Nat.succ_mul]; omega
      have h1 : (y + 1) * w ≤ n * w := Nat.mul_le_mul_right w (by omega)
      rw [List.getD_append _ _ _ _ (by rw [gridMap_length]; omega)]
      exact ih hyn
    · have hyeq : y = n := by omega
      subst hyeq
      rw [List.getD_append_right _ _ _ _ (by rw [gridMap_length]; omega)]
      rw [gridMap_length]
      have hidx : y * w + x - y * w = x := by omega
      rw [hidx]
      rw [List.getD_eq_getElem _ _ (by simpa using hx)]
      rw [List.getElem_map, List.getElem_range]

lemma gridMap_mem (w h : Nat) (f : Nat → Nat → Nat) (v : Nat)
    (hv : v ∈ gridMap w h f) : ∃ x y, x < w ∧ y < h ∧ v = f x y := by
  unfold gridMap at hv
  rw [List.mem_flatMap] at hv
  obtain ⟨y, hy, hv⟩ := hv
  rw [List.mem_map] at hv
  obtain ⟨x, hx, rfl⟩ := hv
  exact ⟨x, y, List.mem_range.mp hx, List.mem_range.mp hy, rfl⟩

/-- `let bytes_per_pixel = if width > 0 { bytes_per_row / width } else { 0 };`
(integer division). -/
def bytesPerPixel (width bytesPerRow : Nat) : Nat :=
  if width > 0 then bytesPerRow / width else 0

/-- The extractor loop of `generate_mask_from_vision`: for row `y`, the row
starts at offset `y * bytes_per_row`; for column `x` the sample is the byte
at `row + x * bytes_per_pixel`; the output element at `y * width + x` is
255 when the sample is positive, 0 otherwise. -/
def extractMask (byte : Nat → Nat) (width height bytesPerRow bpp : Nat) : List Nat :=
  gridMap width height fun x y =>
    if byte (y * bytesPerRow + x * bpp) > 0 then 255 else 0

lemma extractMask_length (byte : Nat → Nat) (width height bytesPerRow bpp : Nat) :
    (extractMask byte width height bytesPerRow bpp).length = width * height := by
  rw [extractMask, gridMap_length, Nat.mul_comm]

lemma extractMask_getD (byte : Nat → Nat) (width height bytesPerRow bpp x y : Nat)
    (hx : x < width) (hy : y < height) :
    (extractMask byte width height bytesPerRow bpp).getD (y * width + x) 0 =
      if byte (y * bytesPerRow + x * bpp) > 0 then 255 else 0 := by
  rw [extractMask, gridMap_getD _ _ _ _ _ hx hy]

lemma extractMask_binary (byte : Nat → Nat) (width height bytesPerRow bpp : Nat) :
    ∀ v ∈ extractMask byte width height bytesPerRow bpp, v = 0 ∨ v = 255 := by
  intro v hv
  obtain ⟨x, y, _, _, rfl⟩ := gridMap_mem _ _ _ _ hv
  split <;> simp

/-- C1: for a raw mask buffer with `width > 0` and derived
`bytesPerPixel = bytesPerRow / width > 0`, the extractor output has length
`width * height`, its element at `y * width + x` is 255 exactly when the
byte at offset `y * bytesPerRow + x * bytesPerPixel` is positive and 0
otherwise (rows advance by `bytesPerRow`), and every element is 0 or 255. -/
theorem c1_mask_extractor (byte : Nat → Nat) (width height bytesPerRow : Nat)
    (hw : 0 < width) (_hbpp : 0 < bytesPerRow / width) :
    (extractMask byte width height bytesPerRow (bytesPerPixel width bytesPerRow)).length
        = width * height ∧
    (∀ x y, x < width → y < height →
      (extractMask byte width height bytesPerRow
          (bytesPerPixel width bytesPerRow)).getD (y * width + x) 0 =
        if byte (y * bytesPerRow + x * (bytesPerRow / width)) > 0 then 255 else 0) ∧
    (∀ v ∈ extractMask byte width height bytesPerRow (bytesPerPixel width bytesPerRow),
      v = 0 ∨ v = 255) := by
  have hbp : bytesPerPixel width bytesPerRow = bytesPerRow / width := by
    simp [bytesPerPixel, hw]
  refine ⟨extractMask_length _ _ _ _ _, ?_, extractMask_binary _ _ _ _ _⟩
  intro x y hx hy
  rw [hbp, extractMask_getD _ _ _ _ _ _ _ hx hy]

theorem c1_mask_extractor_witness :
    (extractMask (fun o => if o % 3 = 0 then 9 else 0) 2 2 5
        (bytesPerPixel 2 5)).length = 2 * 2 :=
  (c1_mask_extractor (fun o => if o % 3 = 0 then 9 else 0) 2 2 5
    (by decide) (by decide)).1

/-- Events on the CVPixelBuffer during the segmentation+extraction phase:
successful lock acquisition, a byte read at an offset from the base
address, and the unlock call. -/
inductive BufEvent where
  | lock : BufEvent
  | read : Nat → BufEvent
  | unlock : BufEvent
  deriving DecidableEq, Repr

/-- Oracle answers of the CoreVideo calls on the Vision mask pixel buffer:
`CVPixelBufferLockBaseAddress` status, `CVPixelBufferGetWidth`/`Height`/
`BytesPerRow`, whether `CVPixelBufferGetBaseAddress` is null, and the byte
stored at each offset from the base address. -/
structure MaskBufferEnv where
  lockStatus : Int
  width : Nat
  height : Nat
  bytesPerRow : Nat
  baseNull : Bool
  byte : Nat → Nat

/-- Offsets sampled by the extractor loop, in program order. -/
def sampleOffsets (width height bytesPerRow bpp : Nat) : List Nat :=
  gridMap width height fun x y => y * bytesPerRow + x * bpp

/-- Lines 183-214 of `generate_mask_from_vision`: lock the buffer, read the
layout, fail on a null base address or a zero derived bytes-per-pixel
(unlocking first), otherwise traverse and binarize, unlock, and return the
mask with its dimensions and the request revision.  The first component is
the event trace on the pixel buffer; a `.lock` event is emitted only when
the lock call succeeds (status 0). -/
def extractionPhase (b : MaskBufferEnv) (revision : Int) :
    List BufEvent × Except String (List Nat × Nat × Nat × Option Int) :=
  if b.lockStatus ≠ 0 then
    ([], .error "Failed to lock mask buffer")
  else if b.baseNull then
    ([.lock, .unlock], .error "Failed to read mask buffer")
  else if bytesPerPixel b.width b.bytesPerRow = 0 then
    ([.lock, .unlock], .error "Invalid mask buffer stride")
  else
    (.lock :: (sampleOffsets b.width b.height b.bytesPerRow
        (bytesPerPixel b.width b.bytesPerRow)).map .read ++ [.unlock],
      .ok (extractMask b.byte b.width b.height b.bytesPerRow
          (bytesPerPixel b.width b.bytesPerRow),
        b.width, b.height, some revision))

/-- Oracle answers of the Objective-C calls made by
`generate_mask_from_vision` before the pixel buffer is reached. -/
structure VisionEnv where
  nsdataNull : Bool
  requestNull : Bool
  revision : Int
  handlerNull : Bool
  performSuccess : Bool
  errorDesc : Option String
  resultCount : Nat
  observationNull : Bool
  pixelBufferNull : Bool
  buf : MaskBufferEnv

/-- `generate_mask_from_vision`: the guard chain over NSData, the Vision
request, the handler, `performRequests`, the result count, the observation
and the instance-mask pixel buffer, followed by the lock/extract phase. -/
def generate_mask_from_vision (env : VisionEnv) :
    List BufEvent × Except String (List Nat × Nat × Nat × Option Int) :=
  if env.nsdataNull then ([], .error "Failed to create NSData")
  else if env.requestNull then ([], .error "Failed to create Vision request")
  else if env.handlerNull then ([], .error "Failed to create Vision handler")
  else if env.performSuccess = false then
    ([], .error (match env.errorDesc with
      | none => "Vision request failed"
      | some s => s))
  else if env.resultCount = 0 then ([], .error "no_subject_detected")
  else if env.observationNull then ([], .error "no_subject_detected")
  else if env.pixelBufferNull then ([], .error "Failed to access mask pixels")
  else extractionPhase env.buf env.revision

/-- C3: with the buffer locked and a non-null base address, the extraction
phase fails with the invalid-stride (InvalidBufferLayout) error exactly
when `width = 0` or `bytesPerRow / width = 0`, and on that failure the
buffer trace is just lock-then-unlock: no byte of the buffer is sampled. -/
theorem c3_invalid_layout (b : MaskBufferEnv) (rev : Int)
    (hlock : b.lockStatus = 0) (hbase : b.baseNull = false) :
    ((extractionPhase b rev).2 = .error "Invalid mask buffer stride" ↔
      (b.width = 0 ∨ b.bytesPerRow / b.width = 0)) ∧
    ((b.width = 0 ∨ b.bytesPerRow / b.width = 0) →
      (extractionPhase b rev).1 = [.lock, .unlock]) := by
  have hbpp : bytesPerPixel b.width b.bytesPerRow = 0 ↔
      (b.width = 0 ∨ b.bytesPerRow / b.width = 0) := by
    rcases Nat.eq_zero_or_pos b.width with hw | hw
    · simp [bytesPerPixel, hw]
    · simp [bytesPerPixel, hw, Nat.pos_iff_ne_zero.mp hw]
  constructor
  · constructor
    · intro herr
      by_contra hcond
      have hne : bytesPerPixel b.width b.bytesPerRow ≠ 0 := fun h0 => hcond (hbpp.mp h0)
      simp [extractionPhase, hlock, hbase, hne] at herr
    · intro hcond
      simp [extractionPhase, hlock, hbase, hbpp.mpr hcond]
  · intro hcond
    simp [extractionPhase, hlock, hbase, hbpp.mpr hcond]

theorem c3_invalid_layout_witness :
    (extractionPhase ⟨0, 10, 5, 0, false, fun _ => 7⟩ 0).2 =
        .error "Invalid mask buffer stride" ∧
    (extractionPhase ⟨0, 10, 5, 0, false, fun _ => 7⟩ 0).1 = [.lock, .unlock] :=
  ⟨(c3_invalid_layout ⟨0, 10, 5, 0, false, fun _ => 7⟩ 0 rfl rfl).1.mpr
      (Or.inr (by decide)),
    (c3_invalid_layout ⟨0, 10, 5, 0, false, fun _ => 7⟩ 0 rfl rfl).2
      (Or.inr (by decide))⟩

/-- C8: on every path of `generate_mask_from_vision` that acquires the
mask-buffer lock, the trace is a single lock acquisition, followed by the
buffer reads, followed by exactly one unlock: the lock is released exactly
once and every read happens between acquisition and release. -/
theorem c8_lock_discipline (env : VisionEnv)
    (hacq : BufEvent.lock ∈ (generate_mask_from_vision env).1) :
    ∃ offs : List Nat, (generate_mask_from_vision env).1 =
      BufEvent.lock :: offs.map BufEvent.read ++ [BufEvent.unlock] := by
  have hred : (generate_mask_from_vision env).1 = [] ∨
      (generate_mask_from_vision env).1 = (extractionPhase env.buf env.revision).1 := by
    unfold generate_mask_from_vision
    split
    · left; rfl
    · split
      · left; rfl
      · split
        · left; rfl
        · split
          · left; rfl
          · split
            · left; rfl
            · split
              · left; rfl
              · split
                · left; rfl
                · right; rfl
  rcases hred with hred | hred
  · rw [hred] at hacq; simp at hacq
  · rw [hred] at hacq ⊢
    by_cases hl : env.buf.lockStatus = 0
    · by_cases hb : env.buf.baseNull
      · exact ⟨[], by simp [extractionPhase, hl, hb]⟩
      · by_cases hbpp : bytesPerPixel env.buf.width env.buf.bytesPerRow = 0
        · exact ⟨[], by simp [extractionPhase, hl, hb, hbpp]⟩
        · exact ⟨sampleOffsets env.buf.width env.buf.height env.buf.bytesPerRow
            (bytesPerPixel env.buf.width env.buf.bytesPerRow),
            by simp [extractionPhase, hl, hb, hbpp]⟩
    · rw [extractionPhase] at hacq
      simp [hl] at hacq

theorem c8_lock_discipline_witness :
    ∃ offs : List Nat,
      (generate_mask_from_vision
        ⟨false, false, 0, false, true, none, 1, false, false,
          ⟨0, 2, 1, 2, false, fun o => if o = 1 then 255 else 0⟩⟩).1 =
      BufEvent.lock :: offs.map BufEvent.read ++ [BufEvent.unlock] :=
  c8_lock_discipline
    ⟨false, false, 0, false, true, none, 1, false, false,
      ⟨0, 2, 1, 2, false, fun o => if o = 1 then 255 else 0⟩⟩
    (by decide)

/-- The compositing loop of `remove_background_macos`: for each mask value
`v` in order, append the four bytes `[255, 255, 255, v]`. -/
def compositeRGBA (scaledMask : List Nat) : List Nat :=
  scaledMask.flatMap fun value => [255, 255, 255, value]

lemma compositeRGBA_nil : compositeRGBA [] = [] := rfl

lemma compositeRGBA_cons (v : Nat) (rest : List Nat) :
    compositeRGBA (v :: rest) = 255 :: 255 :: 255 :: v :: compositeRGBA rest := rfl

lemma compositeRGBA_length (scaledMask : List Nat) :
    (compositeRGBA scaledMask).length = 4 * scaledMask.length := by
  induction scaledMask with
  | nil => rfl
  | cons v rest ih => rw [compositeRGBA_cons]; simp [ih]; omega

lemma compositeRGBA_chunk (scaledMask : List Nat) (i : Nat) (hi : i < scaledMask.length) :
    ((compositeRGBA scaledMask).drop (4 * i)).take 4 =
      [255, 255, 255, scaledMask.getD i 0] := by
  induction scaledMask generalizing i with
  | nil => simp at hi
  | cons v rest ih =>
    rcases i with _ | j
    · simp [compositeRGBA_cons]
    · have h4 : 4 * (j + 1) = 4 * j + 1 + 1 + 1 + 1 := by omega
      rw [compositeRGBA_cons, h4]
      simp only [List.drop_succ_cons]
      exact ih j (by simpa using hi)

lemma compositeRGBA_alpha_binary (scaledMask : List Nat)
    (hbin : ∀ v ∈ scaledMask, v = 0 ∨ v = 255) :
    ∀ i, i % 4 = 3 →
      (compositeRGBA scaledMask).getD i 0 = 0 ∨
      (compositeRGBA scaledMask).getD i 0 = 255 := by
  induction scaledMask with
  | nil => intro i _; left; rfl
  | cons v rest ih =>
    intro i hi
    rcases i with _ | _ | _ | _ | j
    · omega
    · omega
    · omega
    · rw [compositeRGBA_cons]
      simpa using hbin v (by simp)
    · rw [compositeRGBA_cons]
      simp only [List.getD_cons_succ]
      exact ih (fun w hw => hbin w (by simp [hw])) j (by omega)

/-- C2: for a resampled mask of length `width * height`, the compositor
output has length exactly `4 * width * height`, and the four bytes at
offset `4 * i` are `[255, 255, 255, mask[i]]` for every pixel index `i`:
the RGB triple is the constant (255,255,255) whatever the mask holds. -/
theorem c2_alpha_compositor (scaledMask : List Nat) (width height : Nat)
    (hlen : scaledMask.length = width * height) :
    (compositeRGBA scaledMask).length = 4 * (width * height) ∧
    (∀ i, i < width * height →
      ((compositeRGBA scaledMask).drop (4 * i)).take 4 =
        [255, 255, 255, scaledMask.getD i 0]) := by
  constructor
  · rw [compositeRGBA_length, hlen]
  · intro i hi
    exact compositeRGBA_chunk scaledMask i (by omega)

theorem c2_alpha_compositor_witness :
    (compositeRGBA [0, 255, 7]).length = 4 * (3 * 1) ∧
    ((compositeRGBA [0, 255, 7]).drop (4 * 2)).take 4 = [255, 255, 255, 7] := by
  have h := c2_alpha_compositor [0, 255, 7] 3 1 (by decide)
  exact ⟨h.1, by rw [h.2 2 (by decide)]; decide⟩

/-- Clamp-to-edge indexing: a negative source index clamps to 0 and an
index at or beyond `n` clamps to `n - 1`. -/
def clampIdx (n : Nat) (i : Int) : Nat :=
  if i < 0 then 0 else min i.toNat (n - 1)

/-- Row-major read of a dense mask, defaulting to 0. -/
def readMask (mask : List Nat) (sw cx cy : Nat) : Nat :=
  mask.getD (cy * sw + cx) 0

/-- Source sample at possibly out-of-range indices, clamped to the edge. -/
def maskAt (mask : List Nat) (sw sh : Nat) (ix iy : Int) : Nat :=
  readMask mask sw (clampIdx sw ix) (clampIdx sh iy)

/-- Modelled from the spec: the separable triangle (linear) filter used by
the resampling step.  The repository delegates this step to
`image::imageops::resize(.., FilterType::Triangle)`, external library code;
§4.4 of the specification describes it as sampling at the source-space
position of each output pixel centre.  The position of output pixel `x`
(of `d`) in a source axis of `s` samples is `(x + 1/2) * s / d - 1/2`,
whose floor this integer tap has, with denominator `2 * d`. -/
def tapBase (x s d : Nat) : Int :=
  (((2 * x + 1) * s : Int) - d) / (2 * d)

/-- Modelled from the spec: the fractional part (numerator over `2 * d`)
of the source-space position of output pixel `x`; the linear weight of the
second of the two nearest source samples. -/
def tapFrac (x s d : Nat) : Nat :=
  ((((2 * x + 1) * s : Int) - d) % (2 * d)).toNat

/-- Modelled from the spec: one resampled output sample — the weighted
average of the up-to-4 nearest source samples, weights proportional to
linear proximity in source space, out-of-bounds references clamped to the
nearest edge sample, rounded to the nearest integer in [0,255]. -/
def resamplePixel (mask : List Nat) (sw sh dw dh x y : Nat) : Nat :=
  let ix := tapBase x sw dw
  let iy := tapBase y sh dh
  let fx := tapFrac x sw dw
  let fy := tapFrac y sh dh
  let t := (2 * dw - fx) * (2 * dh - fy) * maskAt mask sw sh ix iy
    + fx * (2 * dh - fy) * maskAt mask sw sh (ix + 1) iy
    + (2 * dw - fx) * fy * maskAt mask sw sh ix (iy + 1)
    + fx * fy * maskAt mask sw sh (ix + 1) (iy + 1)
  min 255 ((2 * t + (2 * dw) * (2 * dh)) / (2 * ((2 * dw) * (2 * dh))))

/-- Modelled from the spec: triangle-filter rescale of a `sw × sh` mask to
`dw × dh`, row-major. -/
def resizeTriangle (sw sh dw dh : Nat) (mask : List Nat) : List Nat :=
  gridMap dw dh fun x y => resamplePixel mask sw sh dw dh x y

lemma resizeTriangle_length (sw sh dw dh : Nat) (mask : List Nat) :
    (resizeTriangle sw sh dw dh mask).length = dw * dh := by
  rw [resizeTriangle, gridMap_length, Nat.mul_comm]

/-- The `scaled_mask` computation of `remove_background_macos` (lines
100-108): when the mask dimensions differ from the target, rebuild the mask
as an image (the container-length check of `ImageBuffer::from_raw`, library
code, is modelled from the spec's exact-length data contract) and resample
it to the target; otherwise pass the mask through unchanged. -/
def scaledMaskOf (tw th mw mh : Nat) (mask : List Nat) : Except String (List Nat) :=
  if mw ≠ tw ∨ mh ≠ th then
    if mask.length = mw * mh then
      .ok (resizeTriangle mw mh tw th mask)
    else
      .error "Failed to create mask image"
  else
    .ok mask

/-- C4: when the mask dimensions already equal the target dimensions, the
resampling step is the identity: the scaled mask is the normalized mask
itself, byte for byte, with no resampling applied. -/
theorem c4_resampler_identity (tw th mw mh : Nat) (mask : List Nat)
    (hw : mw = tw) (hh : mh = th) :
    scaledMaskOf tw th mw mh mask = .ok mask := by
  simp [scaledMaskOf, hw, hh]

theorem c4_resampler_identity_witness :
    scaledMaskOf 5 6 5 6 [0, 255] = .ok [0, 255] :=
  c4_resampler_identity 5 6 5 6 [0, 255] rfl rfl

/-- Oracle answers of the ImageIO/CoreGraphics calls in
`decode_image_dimensions`: whether NSData creation, image-source creation
or image decode returns null, and the width/height the decoded CGImage
reports. -/
structure ProbeEnv where
  nsdataNull : Bool
  sourceNull : Bool
  imageNull : Bool
  dims : Nat × Nat

/-- `decode_image_dimensions`: fail when NSData, the image source, or the
image cannot be created; otherwise return the decoder-reported width and
height. -/
def decode_image_dimensions (env : ProbeEnv) : Except String (Nat × Nat) :=
  if env.nsdataNull then .error "Failed to create NSData"
  else if env.sourceNull then .error "Failed to create image source"
  else if env.imageNull then .error "Failed to decode image"
  else .ok env.dims

/-- `RemoveBackgroundResult` (width and height are u32 in the source,
modelled as Nat; revision is `Option<i32>`). -/
structure RemoveBackgroundResult where
  mask_png_base64 : String
  width : Nat
  height : Nat
  revision : Option Int
  deriving DecidableEq

/-- Oracle environment of one `remove_background_macos` call: the base64
decode of the argument, the probe and Vision oracles, and the PNG encoder
and base64 encoder used on the way out. -/
structure MacEnv where
  decodeB64 : Except String (List Nat)
  probe : ProbeEnv
  vision : VisionEnv
  encodePng : List Nat → Except String (List Nat)
  b64encode : List Nat → String

/-- Lines 110-117 of `remove_background_macos`: build the RGBA raster from
the scaled mask, then rebuild it as a `target_width × target_height` image
(the container-length check of `ImageBuffer::from_raw`, library code, is
modelled from the spec's exact-length data contract for OutputRaster). -/
def compositeStage (tw th : Nat) (scaled : List Nat) : Except String (List Nat) :=
  let rgba := compositeRGBA scaled
  if rgba.length = tw * th * 4 then .ok rgba else .error "Failed to build mask PNG"

/-- Lines 90-108 of `remove_background_macos`: base64-decode the argument,
probe the target dimensions, run Vision segmentation + extraction, and
conditionally resample, yielding the target dimensions, the scaled mask
and the revision. -/
def preComposite (env : MacEnv) : Except String (Nat × Nat × List Nat × Option Int) :=
  match env.decodeB64 with
  | .error e => .error ("Failed to decode image bytes: " ++ e)
  | .ok _bytes =>
    match decode_image_dimensions env.probe with
    | .error e => .error ("Failed to decode image: " ++ e)
    | .ok (tw, th) =>
      match (generate_mask_from_vision env.vision).2 with
      | .error e => .error e
      | .ok (mask, mw, mh, rev) =>
        match scaledMaskOf tw th mw mh mask with
        | .error e => .error e
        | .ok scaled => .ok (tw, th, scaled, rev)

/-- Lines 90-117 of `remove_background_macos`: everything up to and
including the RGBA OutputRaster. -/
def pipelineCore (env : MacEnv) : Except String (List Nat × Nat × Nat × Option Int) :=
  match preComposite env with
  | .error e => .error e
  | .ok (tw, th, scaled, rev) =>
    match compositeStage tw th scaled with
    | .error e => .error e
    | .ok rgba => .ok (rgba, tw, th, rev)

/-- `remove_background_macos`: the full pipeline, ending with the PNG
encoder and the base64 encoding of its output. -/
def remove_background_macos (env : MacEnv) : Except String RemoveBackgroundResult :=
  match pipelineCore env with
  | .error e => .error e
  | .ok (rgba, tw, th, rev) =>
    match env.encodePng rgba with
    | .error e => .error ("Failed to encode mask PNG: " ++ e)
    | .ok png =>
      .ok { mask_png_base64 := env.b64encode png, width := tw, height := th,
            revision := rev }

/-- The `cfg(target_os)` dispatch of `remove_background`. -/
inductive Platform where
  | macos : Platform
  | other : Platform
  deriving DecidableEq

/-- `remove_background`: on macOS delegate to `remove_background_macos`;
on every other target return the `unsupported_platform` error. -/
def remove_background (p : Platform) (env : MacEnv) :
    Except String RemoveBackgroundResult :=
  match p with
  | .macos => remove_background_macos env
  | .other => .error "unsupported_platform"

/-- C10: on every platform other than macOS, `remove_background` fails
with the error string "unsupported_platform" whatever the call's
environment: no probe, segmentation or other pipeline stage can influence
the result, since the result is the same for every oracle environment. -/
theorem c10_unsupported_platform (env : MacEnv) :
    remove_background Platform.other env = .error "unsupported_platform" := rfl

/-- C6 as stated is false on the code: `decode_image_dimensions` checks
only that the container decodes, never that the dimensions are positive; a
decoder reporting width 0 yields a successful probe result of (0, 10). -/
theorem c6_counterexample :
    decode_image_dimensions ⟨false, false, false, (0, 10)⟩ = .ok (0, 10) ∧
    ¬ (0 : Nat) > 0 := by
  exact ⟨rfl, by decide⟩

/-- C6 amended: the probe succeeds exactly when NSData creation,
image-source creation and image decode all succeed, in which case it
returns the decoder-reported dimensions unchecked (they may be zero); when
it fails, the pipeline aborts before segmentation: the call's result is the
same whatever the Vision oracle answers. -/
theorem c6_probe_amended (penv : ProbeEnv) (env env' : MacEnv) :
    ((∃ p, decode_image_dimensions penv = .ok p) ↔
      (penv.nsdataNull = false ∧ penv.sourceNull = false ∧ penv.imageNull = false)) ∧
    (∀ p, decode_image_dimensions penv = .ok p → p = penv.dims) ∧
    (env.decodeB64 = env'.decodeB64 → env.probe = env'.probe →
      (∃ e, decode_image_dimensions env.probe = .error e) →
      pipelineCore env = pipelineCore env') := by
  refine ⟨⟨?_, ?_⟩, ?_, ?_⟩
  · intro ⟨p, hp⟩
    by_contra hflag
    have : decode_image_dimensions penv ≠ .ok p := by
      unfold decode_image_dimensions
      rcases hn : penv.nsdataNull with _ | _ <;>
        rcases hs : penv.sourceNull with _ | _ <;>
          rcases hi : penv.imageNull with _ | _ <;> simp_all
    exact this hp
  · intro ⟨hn, hs, hi⟩
    exact ⟨penv.dims, by simp [decode_image_dimensions, hn, hs, hi]⟩
  · intro p hp
    unfold decode_image_dimensions at hp
    rcases hn : penv.nsdataNull <;> rcases hs : penv.sourceNull <;>
      rcases hi : penv.imageNull <;> simp_all
  · intro hb64 hprobe herr
    obtain ⟨e, he⟩ := herr
    have he' : decode_image_dimensions env'.probe = .error e := hprobe ▸ he
    unfold pipelineCore preComposite
    rw [hb64]
    rcases hd : env'.decodeB64 with e2 | bs
    · rfl
    · simp only [hprobe, he, he']

theorem c6_probe_amended_witness :
    pipelineCore
      ⟨.ok [], ⟨false, false, true, (5, 5)⟩,
        ⟨false, false, 0, false, true, none, 1, false, false,
          ⟨0, 2, 1, 2, false, fun _ => 0⟩⟩,
        fun _ => .ok [], fun _ => ""⟩ =
    pipelineCore
      ⟨.ok [], ⟨false, false, true, (5, 5)⟩,
        ⟨true, true, 7, true, false, some "boom", 0, true, true,
          ⟨1, 9, 9, 9, true, fun _ => 1⟩⟩,
        fun _ => .error "nope", fun _ => "x"⟩ :=
  (c6_probe_amended ⟨false, false, true, (5, 5)⟩
      ⟨.ok [], ⟨false, false, true, (5, 5)⟩,
        ⟨false, false, 0, false, true, none, 1, false, false,
          ⟨0, 2, 1, 2, false, fun _ => 0⟩⟩,
        fun _ => .ok [], fun _ => ""⟩
      ⟨.ok [], ⟨false, false, true, (5, 5)⟩,
        ⟨true, true, 7, true, false, some "boom", 0, true, true,
          ⟨1, 9, 9, 9, true, fun _ => 1⟩⟩,
        fun _ => .error "nope", fun _ => "x"⟩).2.2 rfl rfl
    ⟨"Failed to decode image", rfl⟩

lemma generate_ok_inv (v : VisionEnv) (mask : List Nat) (mw mh : Nat)
    (rev : Option Int)
    (h : (generate_mask_from_vision v).2 = .ok (mask, mw, mh, rev)) :
    mask.length = mw * mh ∧ (∀ u ∈ mask, u = 0 ∨ u = 255) ∧
      mw = v.buf.width ∧ mh = v.buf.height := by
  unfold generate_mask_from_vision at h
  split at h
  · simp at h
  · split at h
    · simp at h
    · split at h
      · simp at h
      · split at h
        · simp at h
        · split at h
          · simp at h
          · split at h
            · simp at h
            · split at h
              · simp at h
              · unfold extractionPhase at h
                split at h
                · simp at h
                · split at h
                  · simp at h
                  · split at h
                    · simp at h
                    · simp only [Except.ok.injEq, Prod.mk.injEq] at h
                      obtain ⟨hm, hw, hh, _⟩ := h
                      subst hm hw hh
                      exact ⟨extractMask_length _ _ _ _ _, extractMask_binary _ _ _ _ _,
                        rfl, rfl⟩

lemma scaledMaskOf_ok_length (tw th mw mh : Nat) (mask scaled : List Nat)
    (h : scaledMaskOf tw th mw mh mask = .ok scaled) (hlen : mask.length = mw * mh) :
    scaled.length = tw * th := by
  unfold scaledMaskOf at h
  by_cases hc : mw ≠ tw ∨ mh ≠ th
  · rw [if_pos hc] at h
    by_cases hl2 : mask.length = mw * mh
    · rw [if_pos hl2] at h
      obtain rfl : resizeTriangle mw mh tw th mask = scaled := by injection h
      exact resizeTriangle_length _ _ _ _ _
    · rw [if_neg hl2] at h
      simp at h
  · rw [if_neg hc] at h
    push_neg at hc
    obtain ⟨h1, h2⟩ := hc
    obtain rfl : mask = scaled := by injection h
    rw [hlen, h1, h2]

/-- C9: a scaled mask whose length is not `targetWidth * targetHeight`
makes the compositing stage fail on its internal-consistency check rather
than produce a raster; and this branch is unreachable in the pipeline:
whenever the stages before compositing succeed, the scaled mask's length
equals the target area and the compositing stage succeeds with the
composited raster. -/
theorem c9_compositor_invariant (tw th : Nat) (scaled : List Nat) (env : MacEnv) :
    (scaled.length ≠ tw * th →
      compositeStage tw th scaled = .error "Failed to build mask PNG") ∧
    (∀ tw' th' scaled' rev, preComposite env = .ok (tw', th', scaled', rev) →
      scaled'.length = tw' * th' ∧
      compositeStage tw' th' scaled' = .ok (compositeRGBA scaled')) := by
  constructor
  · intro hne
    have hk : ¬ (4 * scaled.length = tw * th * 4) := by
      intro hcontra
      rw [Nat.mul_comm (tw * th) 4] at hcontra
      exact hne (Nat.eq_of_mul_eq_mul_left (by decide) hcontra)
    simp [compositeStage, compositeRGBA_length, hk]
  · intro tw' th' scaled' rev hpre
    rw [preComposite] at hpre
    rcases hd : env.decodeB64 with e | bs
    · simp [hd] at hpre
    · rcases hp : decode_image_dimensions env.probe with e | p
      · simp [hd, hp] at hpre
      · obtain ⟨tw0, th0⟩ := p
        rcases hg : (generate_mask_from_vision env.vision).2 with e | q
        · simp [hd, hp, hg] at hpre
        · obtain ⟨mask, mw, mh, rev0⟩ := q
          rcases hs : scaledMaskOf tw0 th0 mw mh mask with e | scaled0
          · simp [hd, hp, hg, hs] at hpre
          · simp only [hd, hp, hg, hs, Except.ok.injEq, Prod.mk.injEq] at hpre
            obtain ⟨htw, hth, hsc, _⟩ := hpre
            subst htw hth hsc
            obtain ⟨hmlen, _, hmw, hmh⟩ := generate_ok_inv env.vision mask mw mh rev0 hg
            have hslen : scaled0.length = tw0 * th0 :=
              scaledMaskOf_ok_length tw0 th0 mw mh mask scaled0 hs hmlen
            refine ⟨hslen, ?_⟩
            have hk : 4 * scaled0.length = tw0 * th0 * 4 := by
              rw [hslen, Nat.mul_comm]
            simp [compositeStage, compositeRGBA_length, hk]

/-- A concrete successful environment: source decodes to 3×1, Vision
reports a 2×1 single-channel mask with bytes [0, 255]. -/
def macEnvA : MacEnv :=
  ⟨.ok [], ⟨false, false, false, (3, 1)⟩,
    ⟨false, false, 0, false, true, none, 1, false, false,
      ⟨0, 2, 1, 2, false, fun o => if o = 1 then 255 else 0⟩⟩,
    fun _ => .ok [], fun _ => ""⟩

theorem c9_compositor_invariant_witness :
    compositeStage 1 1 [1, 2, 3] = .error "Failed to build mask PNG" ∧
    compositeStage 3 1 [0, 128, 255] = .ok (compositeRGBA [0, 128, 255]) :=
  ⟨(c9_compositor_invariant 1 1 [1, 2, 3] macEnvA).1 (by decide),
    ((c9_compositor_invariant 1 1 [1, 2, 3] macEnvA).2 3 1 [0, 128, 255]
      (some 0) (by rfl)).2⟩

lemma probe_ok_inv (penv : ProbeEnv) (p : Nat × Nat)
    (h : decode_image_dimensions penv = .ok p) : p = penv.dims := by
  unfold decode_image_dimensions at h
  rcases hn : penv.nsdataNull <;> rcases hs : penv.sourceNull <;>
    rcases hi : penv.imageNull <;> simp_all

lemma compositeStage_ok_inv (tw th : Nat) (scaled rgba : List Nat)
    (h : compositeStage tw th scaled = .ok rgba) : rgba = compositeRGBA scaled := by
  unfold compositeStage at h
  by_cases hc : (compositeRGBA scaled).length = tw * th * 4
  · rw [if_pos hc] at h
    injection h with h
    exact h.symm
  · rw [if_neg hc] at h
    simp at h

/-- C5 as stated is false on the code: a successful invocation in which the
2×1 Vision mask [0, 255] is resampled to the 3×1 target produces the
OutputRaster below, whose alpha byte at pixel 1 (offset 7) is 128 —
neither 0 nor 255. -/
theorem c5_counterexample :
    pipelineCore macEnvA =
      .ok ([255, 255, 255, 0, 255, 255, 255, 128, 255, 255, 255, 255],
        3, 1, some 0) ∧
    ([255, 255, 255, 0, 255, 255, 255, 128, 255, 255, 255, 255] :
        List Nat).getD 7 0 = 128 ∧
    (128 : Nat) ≠ 0 ∧ (128 : Nat) ≠ 255 :=
  ⟨rfl, by decide, by decide, by decide⟩

/-- C5 amended: every alpha byte of the OutputRaster is exactly 0 or 255 in
the invocations where the Vision mask dimensions already equal the probed
target dimensions (so no resampling occurs); when the mask is resampled,
intermediate alpha values can occur. -/
theorem c5_binary_alpha_no_resample (env : MacEnv) (r : List Nat) (tw th : Nat)
    (rev : Option Int)
    (hok : pipelineCore env = .ok (r, tw, th, rev))
    (hw : env.vision.buf.width = env.probe.dims.1)
    (hh : env.vision.buf.height = env.probe.dims.2) :
    ∀ i, i % 4 = 3 → r.getD i 0 = 0 ∨ r.getD i 0 = 255 := by
  rw [pipelineCore] at hok
  rcases hpre : preComposite env with e | q
  · rw [hpre] at hok; simp at hok
  · obtain ⟨tw0, th0, scaled0, rev0⟩ := q
    rw [hpre] at hok
    rcases hcs : compositeStage tw0 th0 scaled0 with e | rgba
    · simp [hcs] at hok
    · simp only [hcs, Except.ok.injEq, Prod.mk.injEq] at hok
      obtain ⟨hr, _, _, _⟩ := hok
      subst hr
      have hrgba := compositeStage_ok_inv tw0 th0 scaled0 rgba hcs
      subst hrgba
      -- invert preComposite to learn that scaled0 is the binary mask
      rw [preComposite] at hpre
      rcases hd : env.decodeB64 with e | bs
      · simp [hd] at hpre
      · rcases hp : decode_image_dimensions env.probe with e | p
        · simp [hd, hp] at hpre
        · obtain ⟨twp, thp⟩ := p
          rcases hg : (generate_mask_from_vision env.vision).2 with e | q2
          · simp [hd, hp, hg] at hpre
          · obtain ⟨mask, mw, mh, revg⟩ := q2
            rcases hs : scaledMaskOf twp thp mw mh mask with e | sc
            · simp [hd, hp, hg, hs] at hpre
            · simp only [hd, hp, hg, hs, Except.ok.injEq, Prod.mk.injEq] at hpre
              obtain ⟨htw, hth, hsc, _⟩ := hpre
              subst htw hth hsc
              obtain ⟨_, hbin, hmw, hmh⟩ :=
                generate_ok_inv env.vision mask mw mh revg hg
              have hdims : (twp, thp) = env.probe.dims :=
                probe_ok_inv env.probe (twp, thp) hp
              have hmw' : mw = twp := by
                rw [hmw, hw, ← hdims]
              have hmh' : mh = thp := by
                rw [hmh, hh, ← hdims]
              have hid : scaledMaskOf twp thp mw mh mask = .ok mask := by
                simp [scaledMaskOf, hmw', hmh']
              have hmask : mask = sc := by
                rw [hid] at hs
                injection hs
              subst hmask
              exact compositeRGBA_alpha_binary _ hbin

/-- A concrete successful environment in which the mask dimensions equal
the probed target dimensions, so no resampling occurs. -/
def macEnvB : MacEnv :=
  ⟨.ok [], ⟨false, false, false, (2, 1)⟩,
    ⟨false, false, 0, false, true, none, 1, false, false,
      ⟨0, 2, 1, 2, false, fun o => if o = 1 then 255 else 0⟩⟩,
    fun _ => .ok [], fun _ => ""⟩

theorem c5_binary_alpha_no_resample_witness :
    ([255, 255, 255, 0, 255, 255, 255, 255] : List Nat).getD 7 0 = 0 ∨
    ([255, 255, 255, 0, 255, 255, 255, 255] : List Nat).getD 7 0 = 255 :=
  c5_binary_alpha_no_resample macEnvB
    [255, 255, 255, 0, 255, 255, 255, 255] 2 1 (some 0) rfl rfl rfl 7 rfl

lemma ediv_emod_decomp (n D q r : Int) (hD : 0 < D) (h : n = D * q + r)
    (hr0 : 0 ≤ r) (hrD : r < D) : n / D = q ∧ n % D = r := by
  have hqr : D * (n / D) + n % D = D * q + r := by
    rw [Int.ediv_add_emod]; exact h
  have hr0' : 0 ≤ n % D := Int.emod_nonneg n (ne_of_gt hD)
  have hrD' : n % D < D := Int.emod_lt_of_pos n hD
  have key : D * (n / D - q) = r - n % D := by linear_combination hqr
  have hb1 : -D < r - n % D := by omega
  have hb2 : r - n % D < D := by omega
  have hq : n / D = q := by
    rcases lt_trichotomy (n / D - q) 0 with hlt | heq | hgt
    · have h1 : n / D - q ≤ -1 := by omega
      have h2 : D * (n / D - q) ≤ D * (-1) :=
        mul_le_mul_of_nonneg_left h1 (le_of_lt hD)
      omega
    · omega
    · have h1 : (1 : Int) ≤ n / D - q := by omega
      have h2 : D * 1 ≤ D * (n / D - q) :=
        mul_le_mul_of_nonneg_left h1 (le_of_lt hD)
      omega
  refine ⟨hq, ?_⟩
  rw [hq] at key
  omega

lemma tap_left (s d : Nat) (hs : 1 ≤ s) (hsd : s ≤ d) (g : Nat → Nat) :
    (2 * d - tapFrac 0 s d) * g (clampIdx s (tapBase 0 s d)) +
      tapFrac 0 s d * g (clampIdx s (tapBase 0 s d + 1)) = 2 * d * g 0 := by
  have hd1 : 1 ≤ d := le_trans hs hsd
  rcases eq_or_lt_of_le hsd with heq | hlt
  · subst heq
    have hn0 : (2 * ((0 : Nat) : Int) + 1) * (s : Int) - (s : Int) = 0 := by
      push_cast; ring
    have hq : tapBase 0 s s = 0 := by
      unfold tapBase; rw [hn0]; simp
    have hf : tapFrac 0 s s = 0 := by
      unfold tapFrac; rw [hn0]; simp
    have hc : clampIdx s 0 = 0 := by
      unfold clampIdx; simp
    rw [hq, hf, hc]
    simp
  · have hn2 : (2 * ((0 : Nat) : Int) + 1) * (s : Int) - (d : Int) =
        2 * (d : Int) * (-1) + ((s : Int) + d) := by
      push_cast; ring
    have hdec := ediv_emod_decomp
      ((2 * ((0 : Nat) : Int) + 1) * (s : Int) - (d : Int)) (2 * (d : Int))
      (-1) ((s : Int) + d)
      (by omega) hn2 (by omega) (by omega)
    have hq : tapBase 0 s d = -1 := by
      unfold tapBase
      exact hdec.1
    have hf : tapFrac 0 s d = s + d := by
      unfold tapFrac
      rw [hdec.2]
      omega
    have hc0 : clampIdx s (-1) = 0 := by
      unfold clampIdx
      simp
    have hc1 : clampIdx s ((-1 : Int) + 1) = 0 := by
      unfold clampIdx
      norm_num
    rw [hq, hf, hc0, hc1, ← Nat.add_mul]
    congr 1
    omega

lemma tap_right (s d : Nat) (hs : 1 ≤ s) (hsd : s ≤ d) (g : Nat → Nat) :
    (2 * d - tapFrac (d - 1) s d) * g (clampIdx s (tapBase (d - 1) s d)) +
      tapFrac (d - 1) s d * g (clampIdx s (tapBase (d - 1) s d + 1)) =
      2 * d * g (s - 1) := by
  have hd1 : 1 ≤ d := le_trans hs hsd
  have hn : (2 * (((d - 1 : Nat)) : Int) + 1) * (s : Int) - (d : Int) =
      2 * (d : Int) * ((s : Int) - 1) + ((d : Int) - s) := by
    have hcast : (((d - 1 : Nat)) : Int) = (d : Int) - 1 := by omega
    rw [hcast]
    ring
  have hdec := ediv_emod_decomp
      ((2 * (((d - 1 : Nat)) : Int) + 1) * (s : Int) - (d : Int)) (2 * (d : Int))
      ((s : Int) - 1) ((d : Int) - s)
      (by omega) hn (by omega) (by omega)
  have hq : tapBase (d - 1) s d = (s : Int) - 1 := by
    unfold tapBase
    exact hdec.1
  have hf : tapFrac (d - 1) s d = d - s := by
    unfold tapFrac
    rw [hdec.2]
    omega
  have hc0 : clampIdx s ((s : Int) - 1) = s - 1 := by
    unfold clampIdx
    rw [if_neg (by omega)]
    have ht : ((s : Int) - 1).toNat = s - 1 := by omega
    rw [ht]
    omega
  have hc1 : clampIdx s ((s : Int) - 1 + 1) = s - 1 := by
    unfold clampIdx
    rw [if_neg (by omega)]
    have ht : ((s : Int) - 1 + 1).toNat = s := by omega
    rw [ht]
    omega
  rw [hq, hf, hc0, hc1, ← Nat.add_mul]
  congr 1
  omega

lemma readMask_le_255 (mask : List Nat) (sw cx cy : Nat)
    (hbin : ∀ v ∈ mask, v = 0 ∨ v = 255) : readMask mask sw cx cy ≤ 255 := by
  unfold readMask
  rcases Nat.lt_or_ge (cy * sw + cx) mask.length with hlt | hge
  · rw [List.getD_eq_getElem _ _ hlt]
    rcases hbin _ (List.getElem_mem hlt) with h | h <;> omega
  · rw [List.getD_eq_default _ _ hge]
    omega

lemma resamplePixel_edge (mask : List Nat) (sw sh dw dh x y cx cy : Nat)
    (hm : readMask mask sw cx cy ≤ 255) (hdw : 1 ≤ dw) (hdh : 1 ≤ dh)
    (hX : ∀ g : Nat → Nat,
      (2 * dw - tapFrac x sw dw) * g (clampIdx sw (tapBase x sw dw)) +
        tapFrac x sw dw * g (clampIdx sw (tapBase x sw dw + 1)) = 2 * dw * g cx)
    (hY : ∀ g : Nat → Nat,
      (2 * dh - tapFrac y sh dh) * g (clampIdx sh (tapBase y sh dh)) +
        tapFrac y sh dh * g (clampIdx sh (tapBase y sh dh + 1)) = 2 * dh * g cy) :
    resamplePixel mask sw sh dw dh x y = readMask mask sw cx cy := by
  have hX0 := hX (fun c => readMask mask sw c (clampIdx sh (tapBase y sh dh)))
  have hX1 := hX (fun c => readMask mask sw c (clampIdx sh (tapBase y sh dh + 1)))
  have hY0 := hY (fun c => readMask mask sw cx c)
  simp only at hX0 hX1 hY0
  simp only [resamplePixel, maskAt]
  have hT : (2 * dw - tapFrac x sw dw) * (2 * dh - tapFrac y sh dh) *
        readMask mask sw (clampIdx sw (tapBase x sw dw)) (clampIdx sh (tapBase y sh dh))
      + tapFrac x sw dw * (2 * dh - tapFrac y sh dh) *
        readMask mask sw (clampIdx sw (tapBase x sw dw + 1)) (clampIdx sh (tapBase y sh dh))
      + (2 * dw - tapFrac x sw dw) * tapFrac y sh dh *
        readMask mask sw (clampIdx sw (tapBase x sw dw)) (clampIdx sh (tapBase y sh dh + 1))
      + tapFrac x sw dw * tapFrac y sh dh *
        readMask mask sw (clampIdx sw (tapBase x sw dw + 1)) (clampIdx sh (tapBase y sh dh + 1))
      = 2 * dw * (2 * dh * readMask mask sw cx cy) := by
    calc
      _ = (2 * dh - tapFrac y sh dh) *
            ((2 * dw - tapFrac x sw dw) *
              readMask mask sw (clampIdx sw (tapBase x sw dw)) (clampIdx sh (tapBase y sh dh))
            + tapFrac x sw dw *
              readMask mask sw (clampIdx sw (tapBase x sw dw + 1)) (clampIdx sh (tapBase y sh dh)))
          + tapFrac y sh dh *
            ((2 * dw - tapFrac x sw dw) *
              readMask mask sw (clampIdx sw (tapBase x sw dw)) (clampIdx sh (tapBase y sh dh + 1))
            + tapFrac x sw dw *
              readMask mask sw (clampIdx sw (tapBase x sw dw + 1)) (clampIdx sh (tapBase y sh dh + 1))) := by
        ring
      _ = (2 * dh - tapFrac y sh dh) * (2 * dw * readMask mask sw cx (clampIdx sh (tapBase y sh dh)))
          + tapFrac y sh dh * (2 * dw * readMask mask sw cx (clampIdx sh (tapBase y sh dh + 1))) := by
        rw [hX0, hX1]
      _ = 2 * dw * ((2 * dh - tapFrac y sh dh) * readMask mask sw cx (clampIdx sh (tapBase y sh dh))
          + tapFrac y sh dh * readMask mask sw cx (clampIdx sh (tapBase y sh dh + 1))) := by
        ring
      _ = 2 * dw * (2 * dh * readMask mask sw cx cy) := by rw [hY0]
  rw [hT]
  have hD : 0 < 2 * dw * (2 * dh) := by positivity
  have hnum : 2 * (2 * dw * (2 * dh * readMask mask sw cx cy)) + 2 * dw * (2 * dh) =
      2 * dw * (2 * dh) * (2 * readMask mask sw cx cy + 1) := by ring
  have hden : 2 * (2 * dw * (2 * dh)) = 2 * dw * (2 * dh) * 2 := by ring
  rw [hnum, hden, Nat.mul_div_mul_left _ _ hD]
  have hhalf : (2 * readMask mask sw cx cy + 1) / 2 = readMask mask sw cx cy := by
    omega
  rw [hhalf]
  exact Nat.min_eq_right hm

/-- C7 as stated is false for downscaling: resampling the binary 4×1 mask
[0, 255, 255, 255] to 2×1 with the triangle filter gives a top-left corner
of 128, not the mask's corner value 0 — for scale factors below 1 the
filter averages across several source samples even at the corners. -/
theorem c7_counterexample :
    (resizeTriangle 4 1 2 1 [0, 255, 255, 255]).getD 0 0 = 128 ∧
    ([0, 255, 255, 255] : List Nat).getD 0 0 = 0 ∧
    (128 : Nat) ≠ 0 := by
  refine ⟨by decide, by decide, by decide⟩

/-- C7 amended: corner-exactness holds for upscaling — whenever the target
dimensions are at least the source dimensions (in both axes), the four
corner elements of the resampled mask equal the corresponding corner
elements of the source mask (clamp-to-edge is exact at the boundaries);
for downscaling the corners are averages of several samples. -/
theorem c7_corner_exact_upscale (mask : List Nat) (sw sh dw dh : Nat)
    (hbin : ∀ v ∈ mask, v = 0 ∨ v = 255)
    (hsw : 1 ≤ sw) (hsh : 1 ≤ sh) (hw : sw ≤ dw) (hh : sh ≤ dh) :
    (resizeTriangle sw sh dw dh mask).getD 0 0 = mask.getD 0 0 ∧
    (resizeTriangle sw sh dw dh mask).getD (dw - 1) 0 = mask.getD (sw - 1) 0 ∧
    (resizeTriangle sw sh dw dh mask).getD ((dh - 1) * dw) 0 =
      mask.getD ((sh - 1) * sw) 0 ∧
    (resizeTriangle sw sh dw dh mask).getD ((dh - 1) * dw + (dw - 1)) 0 =
      mask.getD ((sh - 1) * sw + (sw - 1)) 0 := by
  have hdw : 1 ≤ dw := le_trans hsw hw
  have hdh : 1 ≤ dh := le_trans hsh hh
  refine ⟨?_, ?_, ?_, ?_⟩
  · have hg : (resizeTriangle sw sh dw dh mask).getD (0 * dw + 0) 0 =
        resamplePixel mask sw sh dw dh 0 0 :=
      gridMap_getD dw dh _ 0 0 (by omega) (by omega)
    rw [show 0 * dw + 0 = 0 from by omega] at hg
    rw [hg]
    have := resamplePixel_edge mask sw sh dw dh 0 0 0 0
      (readMask_le_255 mask sw 0 0 hbin) hdw hdh
      (tap_left sw dw hsw hw) (tap_left sh dh hsh hh)
    rw [this]
    unfold readMask
    rw [show 0 * sw + 0 = 0 from by omega]
  · have hg : (resizeTriangle sw sh dw dh mask).getD (0 * dw + (dw - 1)) 0 =
        resamplePixel mask sw sh dw dh (dw - 1) 0 :=
      gridMap_getD dw dh _ (dw - 1) 0 (by omega) (by omega)
    rw [show 0 * dw + (dw - 1) = dw - 1 from by omega] at hg
    rw [hg]
    have := resamplePixel_edge mask sw sh dw dh (dw - 1) 0 (sw - 1) 0
      (readMask_le_255 mask sw (sw - 1) 0 hbin) hdw hdh
      (tap_right sw dw hsw hw) (tap_left sh dh hsh hh)
    rw [this]
    unfold readMask
    rw [show 0 * sw + (sw - 1) = sw - 1 from by omega]
  · have hg : (resizeTriangle sw sh dw dh mask).getD ((dh - 1) * dw + 0) 0 =
        resamplePixel mask sw sh dw dh 0 (dh - 1) :=
      gridMap_getD dw dh _ 0 (dh - 1) (by omega) (by omega)
    rw [show (dh - 1) * dw + 0 = (dh - 1) * dw from by omega] at hg
    rw [hg]
    have := resamplePixel_edge mask sw sh dw dh 0 (dh - 1) 0 (sh - 1)
      (readMask_le_255 mask sw 0 (sh - 1) hbin) hdw hdh
      (tap_left sw dw hsw hw) (tap_right sh dh hsh hh)
    rw [this]
    unfold readMask
    rw [show (sh - 1) * sw + 0 = (sh - 1) * sw from by omega]
  · have hg : (resizeTriangle sw sh dw dh mask).getD ((dh - 1) * dw + (dw - 1)) 0 =
        resamplePixel mask sw sh dw dh (dw - 1) (dh - 1) :=
      gridMap_getD dw dh _ (dw - 1) (dh - 1) (by omega) (by omega)
    rw [hg]
    have := resamplePixel_edge mask sw sh dw dh (dw - 1) (dh - 1) (sw - 1) (sh - 1)
      (readMask_le_255 mask sw (sw - 1) (sh - 1) hbin) hdw hdh
      (tap_right sw dw hsw hw) (tap_right sh dh hsh hh)
    rw [this]
    unfold readMask
    rfl

theorem c7_corner_exact_upscale_witness :
    (resizeTriangle 1 1 2 2 [255]).getD 0 0 = ([255] : List Nat).getD 0 0 :=
  (c7_corner_exact_upscale [255] 1 1 2 2 (by decide) (by decide) (by decide)
    (by decide) (by decide)).1

end Galileo
